import Mathlib

/-!
Verification of the invoice-analysis core of SmartDocs Insight
(`main.py`): the per-row COO/weight extractor, the per-file invoice
analyzer `analyze_invoice`, the metadata extractor
`extract_csv_metadata`, and the cross-file aggregation performed in
`select_files`.

The Python code is shallowly embedded:
* a CSV file that was read successfully is a `List (List String)`
  (rows of cells); a file whose read raised an I/O, decoding or
  parsing error is `Except.error msg`;
* Python floats are modelled as `ℚ` (exact arithmetic; `round(x, 3)`
  becomes decimal round-half-to-even, see `roundTo3`);
* Python string operations (`strip`, `upper`, `split`, `replace`,
  membership) are re-implemented over `List Char` so that they
  evaluate inside the kernel;
* the regular expression
  `/\s*([A-Za-z]{2})\s*/\s*([\d.,]+)\s*(KG|KGS|G|GRAMS?)\b`
  (compiled with IGNORECASE) is implemented directly as `cooSearch`:
  `re.search` semantics (leftmost match), greedy character classes
  (which are deterministic here because the character classes of
  adjacent pattern pieces are disjoint) and the ordered alternation
  `KG|KGS|G|GRAMS?` with word-boundary backtracking;
* the `pycountry` ISO-3166 alpha-2 name table is an external data
  dependency of the code and is modelled as a parameter
  `iso : String → Option String`.
-/

/- `Rat` arithmetic is `@[irreducible]` only for elaboration purposes;
making it semireducible here lets `decide` evaluate concrete weights. -/
attribute [local semireducible] Rat.add Rat.mul Rat.inv Rat.sub

/-! ## Python string primitives -/

/-- Python `str.strip()`: remove leading and trailing whitespace. -/
def pyStrip (s : String) : String :=
  ⟨((s.data.dropWhile Char.isWhitespace).reverse.dropWhile Char.isWhitespace).reverse⟩

/-- Python `str.upper()` (ASCII case mapping). -/
def pyUpper (s : String) : String := ⟨s.data.map Char.toUpper⟩

/-- The `_norm` helper of `analyze_invoice`:
`(s or "").strip().lstrip(BOM).upper()` where BOM is U+FEFF. -/
def pyNorm (s : String) : String :=
  pyUpper ⟨(pyStrip s).data.dropWhile (fun c => c = '\uFEFF')⟩

/-- Python `s or default` for strings: the default replaces the empty string. -/
def pyOr (s d : String) : String := if s = "" then d else s

/-- Split a character list at every character satisfying `p`; the
separators are dropped and empty groups are kept (Python
`str.split(sep)` semantics at the character level). -/
def splitOnP (p : Char → Bool) : List Char → List (List Char)
  | [] => [[]]
  | x :: rest =>
    match splitOnP p rest with
    | [] => [[]]
    | g :: gs => if p x then [] :: g :: gs else (x :: g) :: gs

/-- Python `s.split(sep)[-1]` for a one-character separator. -/
def pyLastSegment (s : String) (c : Char) : String :=
  ⟨(splitOnP (fun x => x = c) s.data).getLastD []⟩

/-- Python `s.split(sep)[0]` for a one-character separator. -/
def pyHeadSegment (s : String) (c : Char) : String :=
  ⟨(splitOnP (fun x => x = c) s.data).headD []⟩

/-- Python `" ".join(s.split())`: collapse internal whitespace runs to
single spaces and trim the ends. -/
def pyCollapseWs (s : String) : String :=
  String.intercalate " "
    (((splitOnP Char.isWhitespace s.data).filter (fun g => g ≠ [])).map
      (fun g => (⟨g⟩ : String)))

/-- Python `prefix-test`: whether `s` starts with `p` (`s.startswith(p)`). -/
def pyStartsWith (s p : String) : Bool := p.data.isPrefixOf s.data

/-- Code-point comparison of character lists; this is how Python
compares strings (`sorted` uses it). -/
def charListLe : List Char → List Char → Bool
  | [], _ => true
  | _ :: _, [] => false
  | a :: as, b :: bs =>
    if a.toNat < b.toNat then true
    else if b.toNat < a.toNat then false
    else charListLe as bs

/-- Python string `<=`, used by `sorted`. -/
def strLe (a b : String) : Bool := charListLe a.data b.data

/-- Python `sorted` on strings (ascending code-point order). -/
def sortStrings (l : List String) : List String :=
  List.insertionSort (fun a b => strLe a b = true) l

/-- Add an element to a list treated as an insertion-ordered set
(Python `set.add` combined with iteration order; the order is
irrelevant wherever the result is sorted afterwards). -/
def addToSet {α : Type} [DecidableEq α] (l : List α) (x : α) : List α :=
  if x ∈ l then l else l ++ [x]

/-- Python `sorted(set(l))` for a list of strings. -/
def pySortedSet (l : List String) : List String := sortStrings l.dedup

/-- Digit string to number (`"2500"` ↦ 2500). -/
def digitsVal (cs : List Char) : Nat :=
  cs.foldl (fun n c => 10 * n + (c.toNat - 48)) 0

/-- Python `float(s)` restricted to strings made of decimal digits and
dots (the only shapes that reach it in `analyze_invoice`, because the
regex capture `[\d.,]+` has its commas removed first): the conversion
succeeds iff there is at least one digit and at most one dot, as in
CPython; otherwise `float` raises `ValueError`, modelled by `none`. -/
def pyFloat (s : String) : Option ℚ :=
  let cs := s.data
  if (cs.all fun c => c.isDigit || c = '.') = true ∧
      cs.count '.' ≤ 1 ∧ (cs.any Char.isDigit) = true then
    let ip := cs.takeWhile (fun c => c ≠ '.')
    let fp := (cs.dropWhile (fun c => c ≠ '.')).drop 1
    some ((digitsVal ip : ℚ) + (digitsVal fp : ℚ) / (10 : ℚ) ^ fp.length)
  else none

/-! ## The COO/weight regular expression

`coo_weight_pattern = /\s*(?P<coo>[A-Za-z]{2})\s*/\s*(?P<weight>[\d.,]+)\s*(?P<unit>KG|KGS|G|GRAMS?)\b`
compiled with `re.IGNORECASE` and used through `.search`. -/

/-- A regex word character (`\w`): letter, digit or underscore. -/
def isWordChar (c : Char) : Bool := c.isAlphanum || c = '_'

/-- The word boundary `\b` placed after a word character: it holds at
the end of the input or before a non-word character. -/
def atBoundary : List Char → Bool
  | [] => true
  | c :: _ => !isWordChar c

/-- Case-insensitive literal match: `lit` is given in upper case;
returns the consumed input characters (original case) and the rest. -/
def matchCI : List Char → List Char → Option (List Char × List Char)
  | [], cs => some ([], cs)
  | _ :: _, [] => none
  | l :: ls, c :: cs =>
    if c.toUpper = l then
      match matchCI ls cs with
      | some (con, rest) => some (c :: con, rest)
      | none => none
    else none

/-- One alternative of the unit alternation: the literal followed by `\b`. -/
def tryLit (lit : List Char) (cs : List Char) : Option (List Char × List Char) :=
  match matchCI lit cs with
  | some (con, rest) => if atBoundary rest then some (con, rest) else none
  | none => none

/-- The `GRAMS?` alternative: `GRAM`, then a greedy optional `S`, then
`\b`.  If the next character is an `S` but the boundary after it
fails, backtracking to the empty option also fails, because that `S`
is itself a word character. -/
def tryGrams (cs : List Char) : Option (List Char × List Char) :=
  match matchCI ['G', 'R', 'A', 'M'] cs with
  | some (con, rest) =>
    match rest with
    | [] => some (con, [])
    | c :: rest2 =>
      if c.toUpper = 'S' then
        if atBoundary rest2 then some (con ++ [c], rest2) else none
      else if atBoundary (c :: rest2) then some (con, c :: rest2)
      else none
  | none => none

/-- The ordered alternation `(KG|KGS|G|GRAMS?)\b`, tried left to right
exactly as a backtracking regex engine does. -/
def matchUnit (cs : List Char) : Option (List Char × List Char) :=
  match tryLit ['K', 'G'] cs with
  | some r => some r
  | none =>
    match tryLit ['K', 'G', 'S'] cs with
    | some r => some r
    | none =>
      match tryLit ['G'] cs with
      | some r => some r
      | none => tryGrams cs

/-- Greedy `\s*`. -/
def dropWs : List Char → List Char
  | [] => []
  | c :: rest => if c.isWhitespace then dropWs rest else c :: rest

/-- Greedy `[\d.,]*`; the caller checks nonemptiness for `[\d.,]+`. -/
def takeNum : List Char → List Char × List Char
  | [] => ([], [])
  | c :: rest =>
    if c.isDigit || c = '.' || c = ',' then
      let p := takeNum rest
      (c :: p.1, p.2)
    else ([], c :: rest)

/-- Attempt to match the whole pattern at the current position,
returning the `coo`, `weight` and `unit` capture groups.  Greedy
matching of the pieces is deterministic because the character classes
of adjacent pieces are disjoint. -/
def matchAt (cs : List Char) : Option (String × String × String) :=
  match cs with
  | [] => none
  | c0 :: r1 =>
    if c0 = '/' then
      match dropWs r1 with
      | a :: b :: r3 =>
        if a.isAlpha && b.isAlpha then
          match dropWs r3 with
          | c1 :: r5 =>
            if c1 = '/' then
              let p := takeNum (dropWs r5)
              if p.1.isEmpty then none
              else
                match matchUnit (dropWs p.2) with
                | some (unitChars, _) => some (⟨[a, b]⟩, ⟨p.1⟩, ⟨unitChars⟩)
                | none => none
            else none
          | [] => none
        else none
      | _ => none
    else none

/-- `coo_weight_pattern.search`: try every start position from the
left; the first position where the pattern matches wins. -/
def cooSearch : List Char → Option (String × String × String)
  | [] => none
  | c :: rest =>
    match matchAt (c :: rest) with
    | some r => some r
    | none => cooSearch rest

/-! ## Rounding (Python `round(x, 3)`) -/

/-- Floor of a rational number, computed without `Rat` division. -/
def ratFloor (q : ℚ) : ℤ := Int.fdiv q.num q.den

/-- Round to the nearest integer, ties to even (CPython `round`). -/
def roundHalfEven (q : ℚ) : ℤ :=
  let f := ratFloor q
  let r := q - (f : ℚ)
  if r < 1 / 2 then f
  else if 1 / 2 < r then f + 1
  else if f % 2 = 0 then f else f + 1

/-- Python `round(x, 3)` on the exact rational model. -/
def roundTo3 (q : ℚ) : ℚ := ((roundHalfEven (q * 1000) : ℤ) : ℚ) / 1000

/-! ## Country classification -/

/-- The fixed 27-member EU alpha-2 set `EU_CODES` of `main.py`. -/
def EU_CODES : List String :=
  ["AT", "BE", "BG", "HR", "CY", "CZ", "DK", "EE", "FI", "FR", "DE", "GR",
   "HU", "IE", "IT", "LV", "LT", "LU", "MT", "NL", "PL", "PT", "RO", "SK",
   "SI", "ES", "SE"]

/-- `get_country_name` of `main.py`.  The `pycountry` ISO-3166 alpha-2
name table is an external data dependency, passed in as
`iso : String → Option String` (`iso c` is the name of the country
whose alpha-2 code is `c`, or `none` when the lookup fails). -/
def get_country_name (iso : String → Option String) (code : String) : String :=
  let upper := pyUpper code
  if upper = "KR" then "Republic of Korea"
  else
    match iso upper with
    | some name => name
    | none => code

/-- The country-name resolution inside the `analyze_invoice` row loop:
`{"MX": "Mexico", "MY": "Malaysia", "PL": "Poland"}.get(coo,
special_names.get(coo, get_country_name(coo)))` with
`special_names = {"KR": "Republic of Korea"}`. -/
def countryNameOf (iso : String → Option String) (coo : String) : String :=
  if coo = "MX" then "Mexico"
  else if coo = "MY" then "Malaysia"
  else if coo = "PL" then "Poland"
  else if coo = "KR" then "Republic of Korea"
  else get_country_name iso coo

/-! ## Row-level extraction (the body of the `analyze_invoice` loop) -/

/-- Guarded cell access `row[i].strip() if len(row) > i and row[i] else d`. -/
def cellDefault (row : List String) (i : Nat) (d : String) : String :=
  if i < row.length ∧ row.getD i "" ≠ "" then pyStrip (row.getD i "") else d

/-- Catalog number: column index 11, default "Unknown". -/
def catalogOf (row : List String) : String := cellDefault row 11 "Unknown"

/-- Description: column index 5, default "Unknown". -/
def descriptionOf (row : List String) : String := cellDefault row 5 "Unknown"

/-- Line number used in missing-COO alerts: column index 1, default "Unknown". -/
def lineNumberOf (row : List String) : String := cellDefault row 1 "Unknown"

/-- COO/weight field: column index 16, default empty. -/
def cooFieldOf (row : List String) : String := cellDefault row 16 ""

/-- The Box 5 collection step
`if len(row) > 9 and row[9]: raw = row[9].strip(); if raw: add raw`:
the value added to the set, if any. -/
def box5CellOf (row : List String) : Option String :=
  if 9 < row.length ∧ row.getD 9 "" ≠ "" then
    let raw := pyStrip (row.getD 9 "")
    if raw ≠ "" then some raw else none
  else none

/-- Outcome of matching the COO/weight field of one qualifying row. -/
inductive FieldOutcome where
  | skip : FieldOutcome
  | malformed : String → FieldOutcome
  | matched : String → String → String → FieldOutcome
deriving DecidableEq

/-- The `weight_info` text of a missing-COO alert: the substring after
the last slash (when a slash is present), stripped, with whitespace
runs collapsed. -/
def malformedWeightInfo (field : String) : String :=
  let wi := if field.data.contains '/' then pyStrip (pyLastSegment field '/') else field
  pyCollapseWs wi

/-- Classify the COO/weight field exactly as the loop does: a regex
match yields the three raw capture groups; otherwise a slash in the
field signals a malformed entry and its `weight_info` text, and a
field without a slash is skipped silently. -/
def fieldOutcome (field : String) : FieldOutcome :=
  match cooSearch field.data with
  | some (c, w, u) => FieldOutcome.matched c w u
  | none =>
    if field.data.contains '/' then FieldOutcome.malformed (malformedWeightInfo field)
    else FieldOutcome.skip

/-- Normalisation of the matched `coo` group: `.strip().upper()`. -/
def cooOf (c : String) : String := pyUpper (pyStrip c)

/-- Weight of a matched row from the raw `weight` and `unit` groups:
strip comma separators, convert with `float` (0.0 on failure), divide
by 1000 when the upper-cased unit starts with "G". -/
def matchedWeight (w u : String) : ℚ :=
  let weightStr := pyStrip ⟨w.data.filter (fun c => c ≠ ',')⟩
  let unit := pyUpper (pyStrip u)
  match pyFloat weightStr with
  | some v => if pyStartsWith unit "G" then v / 1000 else v
  | none => 0

/-- The alert string appended for a missing COO. -/
def missingCooAlert (lineNumber catalog description weightInfo : String) : String :=
  "⚠️ Missing COO → Line " ++ lineNumber ++ "\n Product: " ++ catalog ++
    "\n Desc: " ++ description ++ "\n Weight: " ++ weightInfo

/-- The display string `"{catalog}, {description}, {country_name}"` of
a matched row. -/
def matchedItemText (iso : String → Option String) (row : List String) (c : String) : String :=
  catalogOf row ++ ", " ++ descriptionOf row ++ ", " ++ countryNameOf iso (cooOf c)

/-! ## Per-file analysis (`analyze_invoice`) -/

/-- The mutable accumulators of the `analyze_invoice` loop. -/
structure AccState where
  nonEu : List String
  eu : List String
  total : ℚ
  box5 : List String
  alerts : List String
deriving DecidableEq

/-- The Box 5 update performed for every qualifying row, before the
COO/weight field is examined. -/
def afterBox5 (st : AccState) (row : List String) : AccState :=
  match box5CellOf row with
  | some v => { st with box5 := addToSet st.box5 v }
  | none => st

/-- One iteration of the `analyze_invoice` row loop. -/
def rowStep (iso : String → Option String) (st : AccState) (row : List String) :
    AccState :=
  if row.isEmpty then st
  else if pyNorm (row.getD 0 "") ≠ "ITEM" then st
  else
    let st1 := afterBox5 st row
    match fieldOutcome (cooFieldOf row) with
    | FieldOutcome.skip => st1
    | FieldOutcome.malformed weightInfo =>
      { st1 with
        alerts := st1.alerts ++
          [missingCooAlert (lineNumberOf row) (catalogOf row) (descriptionOf row)
            weightInfo] }
    | FieldOutcome.matched c w u =>
      let coo := cooOf c
      let itemText := matchedItemText iso row c
      if coo ∈ EU_CODES then { st1 with eu := st1.eu ++ [itemText] }
      else
        { st1 with
          nonEu := st1.nonEu ++ [itemText],
          total := st1.total + matchedWeight w u }

/-- The result tuple of `analyze_invoice`. -/
structure FileAnalysisResult where
  nonEuItems : List String
  euItems : List String
  totalNonEuWeightKg : ℚ
  box5Reference : String
  invoiceReference : String
  missingCooAlerts : List String
deriving DecidableEq

/-- Invoice-reference resolution on the first row: prefer `B1`
(trimmed); when it is empty and `A1` (BOM-stripped, upper-cased) is
one of HEADER/INVOICE/INV, re-read `B1`.  The initial value "Unknown"
survives when the guards fail. -/
def invoiceRefRaw (lines : List (List String)) : String :=
  if 0 < lines.length ∧ 1 < (lines.getD 0 []).length then
    let v := pyStrip ((lines.getD 0 []).getD 1 "")
    if v = "" then
      if pyNorm ((lines.getD 0 []).getD 0 "") ∈ (["HEADER", "INVOICE", "INV"] : List String) then
        pyStrip ((lines.getD 0 []).getD 1 "")
      else v
    else v
  else "Unknown"

/-- `analyze_invoice`.  A successfully read CSV file is `Except.ok`
rows; a file whose open/read/parse raised is `Except.error` with the
exception text, which both `except` clauses of the source turn into
the same degraded result. -/
def analyze_invoice (iso : String → Option String) :
    Except String (List (List String)) → FileAnalysisResult
  | Except.error e =>
    { nonEuItems := []
      euItems := []
      totalNonEuWeightKg := 0
      box5Reference := "Unknown"
      invoiceReference := "Unknown"
      missingCooAlerts := ["Error during analysis: " ++ e] }
  | Except.ok lines =>
    let st := lines.foldl (rowStep iso) ⟨[], [], 0, [], []⟩
    { nonEuItems := st.nonEu
      euItems := st.eu
      totalNonEuWeightKg := roundTo3 st.total
      box5Reference :=
        if st.box5 ≠ [] then String.intercalate ", " (sortStrings st.box5) else "Unknown"
      invoiceReference := pyOr (invoiceRefRaw lines) "Unknown"
      missingCooAlerts := st.alerts }

/-! ## Metadata extraction (`extract_csv_metadata`) -/

/-- The result tuple of `extract_csv_metadata`. -/
structure FileMetadata where
  customerName : String
  invoiceNumber : String
  poSoPairs : List (String × String)
  error : Option String
deriving DecidableEq

/-- One iteration of the PO/SO loop over `lines[7:]`: PO from column
index 9 and SO from column index 13 (both trimmed), rows missing
either skipped, SO truncated at the first "-" and re-stripped, pairs
deduplicated in first-seen order. -/
def poSoStep (acc : List (String × String)) (row : List String) :
    List (String × String) :=
  if row.isEmpty then acc
  else
    let po := if 9 < row.length ∧ row.getD 9 "" ≠ "" then pyStrip (row.getD 9 "") else ""
    let soFull := if 13 < row.length ∧ row.getD 13 "" ≠ "" then pyStrip (row.getD 13 "") else ""
    if po = "" ∨ soFull = "" then acc
    else addToSet acc (po, pyStrip (pyHeadSegment soFull '-'))

/-- `extract_csv_metadata`: invoice number from cell (0,1), customer
name from cell (1,1), PO/SO pairs from rows 7 onwards; a read error
degrades to empty fields plus the error text. -/
def extract_csv_metadata : Except String (List (List String)) → FileMetadata
  | Except.error e =>
    { customerName := ""
      invoiceNumber := ""
      poSoPairs := []
      error := some ("Error reading CSV: " ++ e) }
  | Except.ok lines =>
    { customerName :=
        if 1 < lines.length ∧ 1 < (lines.getD 1 []).length then
          pyStrip ((lines.getD 1 []).getD 1 "")
        else ""
      invoiceNumber :=
        if 0 < lines.length ∧ 1 < (lines.getD 0 []).length then
          pyStrip ((lines.getD 0 []).getD 1 "")
        else ""
      poSoPairs := (lines.drop 7).foldl poSoStep []
      error := none }

/-! ## Cross-file aggregation (the batch loop of `select_files`) -/

/-- The accumulators of the per-file loop in `select_files`. -/
structure AggState where
  nonEu : List String
  eu : List String
  poNumbers : List String
  invoiceNumbers : List String
  totalWeight : ℚ
deriving DecidableEq

/-- One iteration of the `select_files` batch loop over analysis
results: extend the item lists, append non-"Unknown" Box 5 and
invoice references, add the per-file weight. -/
def aggregateStep (st : AggState) (r : FileAnalysisResult) : AggState :=
  { nonEu := st.nonEu ++ r.nonEuItems
    eu := st.eu ++ r.euItems
    poNumbers :=
      if r.box5Reference ≠ "Unknown" then st.poNumbers ++ [r.box5Reference]
      else st.poNumbers
    invoiceNumbers :=
      if r.invoiceReference ≠ "Unknown" then st.invoiceNumbers ++ [r.invoiceReference]
      else st.invoiceNumbers
    totalWeight := st.totalWeight + r.totalNonEuWeightKg }

/-- The batch accumulation over the per-file analysis results, in
file-processing order. -/
def aggregate (results : List FileAnalysisResult) : AggState :=
  results.foldl aggregateStep ⟨[], [], [], [], 0⟩

/-- `box5_list = ", ".join(sorted(set(all_po_numbers))) if all_po_numbers else "Unknown"`. -/
def box5_list (results : List FileAnalysisResult) : String :=
  if (aggregate results).poNumbers ≠ [] then
    String.intercalate ", " (pySortedSet (aggregate results).poNumbers)
  else "Unknown"

/-- `invoice_list = ", ".join(sorted(set(all_invoice_numbers))) if all_invoice_numbers else "Unknown"`. -/
def invoice_list (results : List FileAnalysisResult) : String :=
  if (aggregate results).invoiceNumbers ≠ [] then
    String.intercalate ", " (pySortedSet (aggregate results).invoiceNumbers)
  else "Unknown"

/-- The EU item list as displayed: `sorted(set(all_eu_items))`. -/
def displayedEu (results : List FileAnalysisResult) : List String :=
  pySortedSet (aggregate results).eu

/-- The grand total as displayed: `round(total_weight, 3)`. -/
def finalWeight (results : List FileAnalysisResult) : ℚ :=
  roundTo3 (aggregate results).totalWeight

/-- A numbered enumeration, `f"{i}. {item}\n"` for `i = start, ...`. -/
def numberedFrom (i : Nat) : List String → String
  | [] => ""
  | x :: xs => toString i ++ ". " ++ x ++ "\n" ++ numberedFrom (i + 1) xs

/-- The "Non-EU items" section of the output message: the concatenated
per-file lists, enumerated from 1 in encounter order. -/
def messageNonEuSection (results : List FileAnalysisResult) : String :=
  "Non-EU items:\n" ++ numberedFrom 1 (aggregate results).nonEu

/-- The "EU items" section of the output message: the de-duplicated,
alphabetically sorted EU list, enumerated from 1. -/
def messageEuSection (results : List FileAnalysisResult) : String :=
  "EU items:\n" ++ numberedFrom 1 (displayedEu results)

/-! ## Reference (specification-side) definitions used to state claims -/

/-- Whether a row qualifies for item processing: non-empty and first
cell normalising to "ITEM". -/
def itemRow (row : List String) : Bool :=
  !row.isEmpty && (pyNorm (row.getD 0 "") == "ITEM")

/-- Box 5 values collected over the qualifying ITEM rows only (what
the code actually does). -/
def rowBox5Step (acc : List String) (row : List String) : List String :=
  if row.isEmpty then acc
  else if pyNorm (row.getD 0 "") ≠ "ITEM" then acc
  else
    match box5CellOf row with
    | some v => addToSet acc v
    | none => acc

/-- The Box 5 value set of a file, collected over ITEM rows. -/
def itemBox5Values (lines : List (List String)) : List String :=
  lines.foldl rowBox5Step []

/-- Claim C1 as stated: Box 5 values collected from EVERY row whose
column-9 cell is non-empty, regardless of the ITEM guard, then sorted
and comma-joined (or "Unknown" when empty).  This definition follows
the claim's words and is compared against `analyze_invoice`. -/
def box5ReferenceClaimed (lines : List (List String)) : String :=
  let vals := lines.foldl
    (fun acc row =>
      match box5CellOf row with
      | some v => addToSet acc v
      | none => acc) []
  if vals ≠ [] then String.intercalate ", " (sortStrings vals) else "Unknown"

/-- The non-EU weight contributed by one row: the matched weight when
the row qualifies, its field matches and its country is outside the
EU set, and 0 otherwise. -/
def rowNonEuWeight (row : List String) : ℚ :=
  if row.isEmpty then 0
  else if pyNorm (row.getD 0 "") ≠ "ITEM" then 0
  else
    match fieldOutcome (cooFieldOf row) with
    | FieldOutcome.matched c w u =>
      if cooOf c ∈ EU_CODES then 0 else matchedWeight w u
    | _ => 0

/-- Claim C6 as stated: the aggregated Box 5 value is the sorted,
comma-joined PO set, with "Unknown" only when BOTH the PO set and the
invoice set are empty.  This definition follows the claim's words and
is compared against `box5_list`. -/
def box5ListClaimed (results : List FileAnalysisResult) : String :=
  if (aggregate results).poNumbers = [] ∧ (aggregate results).invoiceNumbers = [] then
    "Unknown"
  else String.intercalate ", " (pySortedSet (aggregate results).poNumbers)

/-! ## Concrete fixtures used by witnesses and counterexamples -/

/-- A stand-in for the `pycountry` ISO-3166 table: it resolves all 27
EU codes (as the real table does) and the handful of codes used in
concrete test rows, and fails on everything else. -/
def isoSample (code : String) : Option String :=
  if code ∈ EU_CODES then some ("Country " ++ code)
  else if code = "US" then some "United States"
  else if code = "CN" then some "China"
  else none

/-- An ITEM row with line number 1, description "D", catalog "CAT" and
the given COO/weight field at column index 16. -/
def mkItemRow (field : String) : List String :=
  ["ITEM", "1", "", "", "", "D", "", "", "", "", "", "CAT", "", "", "", "", field]

/-- A metadata row with the given PO at column index 9 and SO at
column index 13. -/
def mkMetaRow (po so : String) : List String :=
  ["", "", "", "", "", "", "", "", "", po, "", "", "", so]

/-- The two-row file of testable property 4: non-EU weights 1.0005 kg
and 2.0005 kg. -/
def fileC5 : List (List String) :=
  [mkItemRow "/ US / 1.0005 KG", mkItemRow "/ CN / 2.0005 KG"]

/-- The metadata file of testable property 5: seven header rows, then
two rows whose (PO, SO-prefix) pairs coincide. -/
def linesC9 : List (List String) :=
  [[], [], [], [], [], [], [],
   mkMetaRow "PO999" "SO12345-000010", mkMetaRow "PO999" "SO12345"]

/-! ## Order and set lemmas -/

theorem charListLe_total : ∀ a b : List Char, charListLe a b = true ∨ charListLe b a = true := by
  intro a
  induction a with
  | nil => intro b; left; rfl
  | cons x xs ih =>
    intro b
    cases b with
    | nil => right; rfl
    | cons y ys =>
      simp only [charListLe]
      by_cases hxy : x.toNat < y.toNat
      · left; simp [hxy]
      · by_cases hyx : y.toNat < x.toNat
        · right; simp [hyx]
        · rcases ih ys with h | h
          · left; simp [hxy, hyx, h]
          · right; simp [hxy, hyx, h]

theorem charListLe_trans :
    ∀ a b c : List Char, charListLe a b = true → charListLe b c = true →
      charListLe a c = true := by
  intro a
  induction a with
  | nil => intro b c h1 h2; rfl
  | cons x xs ih =>
    intro b c h1 h2
    cases b with
    | nil => simp [charListLe] at h1
    | cons y ys =>
      cases c with
      | nil => simp [charListLe] at h2
      | cons z zs =>
        simp only [charListLe] at h1 h2 ⊢
        by_cases hxy : x.toNat < y.toNat
        · by_cases hyz : y.toNat < z.toNat
          · have hxz : x.toNat < z.toNat := Nat.lt_trans hxy hyz
            simp [hxz]
          · by_cases hzy : z.toNat < y.toNat
            · simp [hyz, hzy] at h2
            · have hxz : x.toNat < z.toNat := by omega
              simp [hxz]
        · by_cases hyx : y.toNat < x.toNat
          · simp [hxy, hyx] at h1
          · rw [if_neg hxy, if_neg hyx] at h1
            by_cases hyz : y.toNat < z.toNat
            · have hxz : x.toNat < z.toNat := by omega
              simp [hxz]
            · by_cases hzy : z.toNat < y.toNat
              · simp [hyz, hzy] at h2
              · rw [if_neg hyz, if_neg hzy] at h2
                have hxz : ¬ x.toNat < z.toNat := by omega
                have hzx : ¬ z.toNat < x.toNat := by omega
                rw [if_neg hxz, if_neg hzx]
                exact ih ys zs h1 h2

instance strLeIsTotal : IsTotal String (fun a b => strLe a b = true) :=
  ⟨fun a b => charListLe_total a.data b.data⟩

instance strLeIsTrans : IsTrans String (fun a b => strLe a b = true) :=
  ⟨fun _ _ _ h1 h2 => charListLe_trans _ _ _ h1 h2⟩

theorem sortStrings_sorted (l : List String) :
    List.Sorted (fun a b => strLe a b = true) (sortStrings l) :=
  List.sorted_insertionSort _ l

theorem sortStrings_perm (l : List String) : List.Perm (sortStrings l) l :=
  List.perm_insertionSort _ l

theorem pySortedSet_sorted (l : List String) :
    List.Sorted (fun a b => strLe a b = true) (pySortedSet l) :=
  sortStrings_sorted _

theorem pySortedSet_nodup (l : List String) : (pySortedSet l).Nodup :=
  ((sortStrings_perm l.dedup).nodup_iff).mpr (List.nodup_dedup l)

theorem mem_pySortedSet (l : List String) (x : String) : x ∈ pySortedSet l ↔ x ∈ l := by
  unfold pySortedSet
  rw [(sortStrings_perm l.dedup).mem_iff, List.mem_dedup]

theorem mem_addToSet {α : Type} [DecidableEq α] (l : List α) (v x : α) :
    x ∈ addToSet l v ↔ x ∈ l ∨ x = v := by
  unfold addToSet
  by_cases h : v ∈ l
  · simp only [if_pos h]
    constructor
    · exact Or.inl
    · rintro (hx | rfl)
      · exact hx
      · exact h
  · simp [if_neg h]

theorem nodup_addToSet {α : Type} [DecidableEq α] (l : List α) (v : α) (h : l.Nodup) :
    (addToSet l v).Nodup := by
  unfold addToSet
  by_cases hv : v ∈ l
  · simpa [if_pos hv] using h
  · simp only [if_neg hv]
    exact List.Nodup.append h (List.nodup_singleton v) (by simpa using hv)

theorem nodup_foldl_addToSet {α β : Type} [DecidableEq α] (step : List α → β → List α)
    (hstep : ∀ acc b, step acc b = acc ∨ ∃ v, step acc b = addToSet acc v) :
    ∀ (l : List β) (acc : List α), acc.Nodup → (l.foldl step acc).Nodup := by
  intro l
  induction l with
  | nil => intro acc h; simpa using h
  | cons b bs ih =>
    intro acc h
    simp only [List.foldl_cons]
    apply ih
    rcases hstep acc b with he | ⟨v, he⟩
    · rw [he]; exact h
    · rw [he]; exact nodup_addToSet _ _ h

/-! ## Projection lemmas for the analyzer fold -/

theorem afterBox5_nonEu (st : AccState) (row : List String) :
    (afterBox5 st row).nonEu = st.nonEu := by
  unfold afterBox5; cases box5CellOf row <;> rfl

theorem afterBox5_eu (st : AccState) (row : List String) :
    (afterBox5 st row).eu = st.eu := by
  unfold afterBox5; cases box5CellOf row <;> rfl

theorem afterBox5_total (st : AccState) (row : List String) :
    (afterBox5 st row).total = st.total := by
  unfold afterBox5; cases box5CellOf row <;> rfl

theorem afterBox5_alerts (st : AccState) (row : List String) :
    (afterBox5 st row).alerts = st.alerts := by
  unfold afterBox5; cases box5CellOf row <;> rfl

theorem rowStep_total (iso : String → Option String) (st : AccState) (row : List String) :
    (rowStep iso st row).total = st.total + rowNonEuWeight row := by
  unfold rowStep rowNonEuWeight
  by_cases h1 : row.isEmpty = true
  · rw [if_pos h1, if_pos h1, add_zero]
  · rw [if_neg h1, if_neg h1]
    by_cases h2 : pyNorm (row.getD 0 "") ≠ "ITEM"
    · rw [if_pos h2, if_pos h2, add_zero]
    · rw [if_neg h2, if_neg h2]
      cases hf : fieldOutcome (cooFieldOf row) with
      | skip => simp [afterBox5_total]
      | malformed wi => simp [afterBox5_total]
      | matched c w u =>
        by_cases hc : cooOf c ∈ EU_CODES
        · simp [hc, afterBox5_total]
        · simp [hc, afterBox5_total]

theorem rowStep_box5 (iso : String → Option String) (st : AccState) (row : List String) :
    (rowStep iso st row).box5 = rowBox5Step st.box5 row := by
  unfold rowStep rowBox5Step
  by_cases h1 : row.isEmpty = true
  · rw [if_pos h1, if_pos h1]
  · rw [if_neg h1, if_neg h1]
    by_cases h2 : pyNorm (row.getD 0 "") ≠ "ITEM"
    · rw [if_pos h2, if_pos h2]
    · rw [if_neg h2, if_neg h2]
      cases hf : fieldOutcome (cooFieldOf row) with
      | skip => unfold afterBox5; cases box5CellOf row <;> simp
      | malformed wi => unfold afterBox5; cases box5CellOf row <;> simp
      | matched c w u =>
        by_cases hc : cooOf c ∈ EU_CODES
        · simp only [hc, if_true]
          unfold afterBox5; cases box5CellOf row <;> simp
        · simp only [hc, if_false]
          unfold afterBox5; cases box5CellOf row <;> simp

theorem foldl_rowStep_total (iso : String → Option String) :
    ∀ (lines : List (List String)) (st : AccState),
      (List.foldl (rowStep iso) st lines).total =
        st.total + (lines.map rowNonEuWeight).sum := by
  intro lines
  induction lines with
  | nil => intro st; simp
  | cons r rs ih =>
    intro st
    simp only [List.foldl_cons, List.map_cons, List.sum_cons, ih, rowStep_total]
    ring

theorem foldl_rowStep_box5 (iso : String → Option String) :
    ∀ (lines : List (List String)) (st : AccState),
      (List.foldl (rowStep iso) st lines).box5 =
        List.foldl rowBox5Step st.box5 lines := by
  intro lines
  induction lines with
  | nil => intro st; rfl
  | cons r rs ih =>
    intro st
    simp only [List.foldl_cons, ih, rowStep_box5]

theorem analyze_total_eq (iso : String → Option String) (lines : List (List String)) :
    (analyze_invoice iso (Except.ok lines)).totalNonEuWeightKg =
      roundTo3 ((lines.map rowNonEuWeight).sum) := by
  show roundTo3 (List.foldl (rowStep iso) ⟨[], [], 0, [], []⟩ lines).total = _
  rw [foldl_rowStep_total]
  norm_num

theorem analyze_box5_eq (iso : String → Option String) (lines : List (List String)) :
    (analyze_invoice iso (Except.ok lines)).box5Reference =
      (if itemBox5Values lines ≠ [] then
        String.intercalate ", " (sortStrings (itemBox5Values lines))
      else "Unknown") := by
  show (if (List.foldl (rowStep iso) ⟨[], [], 0, [], []⟩ lines).box5 ≠ [] then
      String.intercalate ", "
        (sortStrings (List.foldl (rowStep iso) ⟨[], [], 0, [], []⟩ lines).box5)
    else "Unknown") = _
  rw [foldl_rowStep_box5]
  rfl

theorem rowBox5Step_shape (acc : List String) (row : List String) :
    rowBox5Step acc row = acc ∨ ∃ v, rowBox5Step acc row = addToSet acc v := by
  unfold rowBox5Step
  by_cases h1 : row.isEmpty = true
  · left; rw [if_pos h1]
  · rw [if_neg h1]
    by_cases h2 : pyNorm (row.getD 0 "") ≠ "ITEM"
    · left; rw [if_pos h2]
    · rw [if_neg h2]
      cases hb : box5CellOf row with
      | some v => right; exact ⟨v, rfl⟩
      | none => left; rfl

theorem mem_rowBox5Step (acc : List String) (row : List String) (x : String) :
    x ∈ rowBox5Step acc row ↔
      x ∈ acc ∨ (itemRow row = true ∧ box5CellOf row = some x) := by
  unfold rowBox5Step
  by_cases h1 : row.isEmpty = true
  · rw [if_pos h1]
    have hit : itemRow row = false := by unfold itemRow; rw [h1]; rfl
    simp [hit]
  · have h1' : row.isEmpty = false := by revert h1; cases row.isEmpty <;> simp
    rw [if_neg h1]
    by_cases h2 : pyNorm (row.getD 0 "") ≠ "ITEM"
    · rw [if_pos h2]
      have hit : itemRow row = false := by
        unfold itemRow
        rw [h1']
        simp only [Bool.not_false, Bool.true_and]
        exact beq_eq_false_iff_ne.mpr h2
      simp [hit]
    · rw [if_neg h2]
      have h2' : pyNorm (row.getD 0 "") = "ITEM" := not_not.mp h2
      have hit : itemRow row = true := by
        unfold itemRow
        rw [h1', h2']
        rfl
      cases hb : box5CellOf row with
      | some v =>
        rw [mem_addToSet]
        simp [hit, eq_comm]
      | none => simp [hit]

theorem mem_foldl_rowBox5Step :
    ∀ (lines : List (List String)) (acc : List String) (x : String),
      x ∈ List.foldl rowBox5Step acc lines ↔
        x ∈ acc ∨ ∃ row ∈ lines, itemRow row = true ∧ box5CellOf row = some x := by
  intro lines
  induction lines with
  | nil => intro acc x; simp
  | cons r rs ih =>
    intro acc x
    simp only [List.foldl_cons, ih, mem_rowBox5Step, List.mem_cons]
    constructor
    · rintro ((hx | ⟨hi, hb⟩) | ⟨row, hr, hi, hb⟩)
      · exact Or.inl hx
      · exact Or.inr ⟨r, Or.inl rfl, hi, hb⟩
      · exact Or.inr ⟨row, Or.inr hr, hi, hb⟩
    · rintro (hx | ⟨row, (rfl | hr), hi, hb⟩)
      · exact Or.inl (Or.inl hx)
      · exact Or.inl (Or.inr ⟨hi, hb⟩)
      · exact Or.inr ⟨row, hr, hi, hb⟩

theorem poSoStep_shape (acc : List (String × String)) (row : List String) :
    poSoStep acc row = acc ∨ ∃ v, poSoStep acc row = addToSet acc v := by
  unfold poSoStep
  by_cases h1 : row.isEmpty = true
  · left; rw [if_pos h1]
  · rw [if_neg h1]
    by_cases h2 : (if 9 < row.length ∧ row.getD 9 "" ≠ "" then pyStrip (row.getD 9 "") else "") = "" ∨
        (if 13 < row.length ∧ row.getD 13 "" ≠ "" then pyStrip (row.getD 13 "") else "") = ""
    · left
      simp only [if_pos h2]
    · right
      exact ⟨_, if_neg h2⟩

/-! ## Aggregation fold lemmas -/

theorem foldl_aggregateStep_nonEu :
    ∀ (rs : List FileAnalysisResult) (st : AggState),
      (List.foldl aggregateStep st rs).nonEu =
        st.nonEu ++ (rs.map FileAnalysisResult.nonEuItems).flatten := by
  intro rs
  induction rs with
  | nil => intro st; simp
  | cons r rest ih =>
    intro st
    simp [List.foldl_cons, ih, aggregateStep, List.flatten_cons]

theorem foldl_aggregateStep_eu :
    ∀ (rs : List FileAnalysisResult) (st : AggState),
      (List.foldl aggregateStep st rs).eu =
        st.eu ++ (rs.map FileAnalysisResult.euItems).flatten := by
  intro rs
  induction rs with
  | nil => intro st; simp
  | cons r rest ih =>
    intro st
    simp [List.foldl_cons, ih, aggregateStep, List.flatten_cons]

theorem foldl_aggregateStep_total :
    ∀ (rs : List FileAnalysisResult) (st : AggState),
      (List.foldl aggregateStep st rs).totalWeight =
        st.totalWeight + (rs.map FileAnalysisResult.totalNonEuWeightKg).sum := by
  intro rs
  induction rs with
  | nil => intro st; simp
  | cons r rest ih =>
    intro st
    simp only [List.foldl_cons, List.map_cons, List.sum_cons, ih, aggregateStep]
    ring

theorem foldl_aggregateStep_po :
    ∀ (rs : List FileAnalysisResult) (st : AggState),
      (List.foldl aggregateStep st rs).poNumbers =
        st.poNumbers ++
          (rs.map FileAnalysisResult.box5Reference).filter (fun s => !(s == "Unknown")) := by
  intro rs
  induction rs with
  | nil => intro st; simp
  | cons r rest ih =>
    intro st
    by_cases h : r.box5Reference = "Unknown"
    · simp [List.foldl_cons, ih, aggregateStep, List.filter_cons, h]
    · simp [List.foldl_cons, ih, aggregateStep, List.filter_cons, h]

theorem foldl_aggregateStep_inv :
    ∀ (rs : List FileAnalysisResult) (st : AggState),
      (List.foldl aggregateStep st rs).invoiceNumbers =
        st.invoiceNumbers ++
          (rs.map FileAnalysisResult.invoiceReference).filter (fun s => !(s == "Unknown")) := by
  intro rs
  induction rs with
  | nil => intro st; simp
  | cons r rest ih =>
    intro st
    by_cases h : r.invoiceReference = "Unknown"
    · simp [List.foldl_cons, ih, aggregateStep, List.filter_cons, h]
    · simp [List.foldl_cons, ih, aggregateStep, List.filter_cons, h]

/-! ## Slash-free fields never match -/

theorem cooSearch_none_of_no_slash :
    ∀ cs : List Char, cs.contains '/' = false → cooSearch cs = none := by
  intro cs
  induction cs with
  | nil => intro h; rfl
  | cons c rest ih =>
    intro h
    simp only [List.contains_cons, Bool.or_eq_false_iff] at h
    obtain ⟨h1, h2⟩ := h
    have hne : '/' ≠ c := beq_eq_false_iff_ne.mp h1
    have hc : ¬ c = '/' := fun hcc => hne hcc.symm
    have hma : matchAt (c :: rest) = none := by
      simp only [matchAt]
      rw [if_neg hc]
    unfold cooSearch
    rw [hma]
    exact ih h2

/-! ## Claim theorems -/

/-- C1, counterexample: `analyze_invoice` does NOT collect the
column-9 value of a row whose first cell is not "ITEM".  On a one-row
file with first cell "X" and a non-empty column-9 cell "PO1", the
analyzer returns "Unknown" while the claimed collection over every
row returns "PO1". -/
theorem C1_counterexample :
    (analyze_invoice isoSample
        (Except.ok [["X", "", "", "", "", "", "", "", "", "PO1"]])).box5Reference =
      "Unknown" ∧
    box5ReferenceClaimed [["X", "", "", "", "", "", "", "", "", "PO1"]] = "PO1" ∧
    (analyze_invoice isoSample
        (Except.ok [["X", "", "", "", "", "", "", "", "", "PO1"]])).box5Reference ≠
      box5ReferenceClaimed [["X", "", "", "", "", "", "", "", "", "PO1"]] :=
  ⟨by decide, by decide, by decide⟩

/-- C1, amended: the file's `box5_reference` is the sorted,
comma-joined set of trimmed column-9 values collected from the
qualifying ITEM rows only (rows that are non-empty and whose first
cell, BOM-stripped and upper-cased, is "ITEM"), or "Unknown" when that
set is empty.  The collected values form a set: no duplicates, and
membership is exactly "some qualifying row carries this value". -/
theorem C1_box5_reference (iso : String → Option String) (lines : List (List String)) :
    (analyze_invoice iso (Except.ok lines)).box5Reference =
      (if itemBox5Values lines ≠ [] then
        String.intercalate ", " (sortStrings (itemBox5Values lines))
      else "Unknown") ∧
    (itemBox5Values lines).Nodup ∧
    (∀ v, v ∈ itemBox5Values lines ↔
      ∃ row ∈ lines, itemRow row = true ∧ box5CellOf row = some v) := by
  refine ⟨analyze_box5_eq iso lines, ?_, ?_⟩
  · exact nodup_foldl_addToSet rowBox5Step rowBox5Step_shape lines [] List.nodup_nil
  · intro v
    have := mem_foldl_rowBox5Step lines [] v
    simpa [itemBox5Values] using this

/-- C2: weight normalization of matched rows.  "/ MX / 2500 G"
matches with groups (MX, 2500, G) and normalizes to 2.5 kg;
"/ PL / 10 KG" matches and keeps 10.0 kg; comma separators are
stripped ("1,500" with unit "grams" gives 1.5 kg); "KGS" needs no
conversion; a numeric token that `float` rejects ("1.2.3") still
matches the pattern, yields weight 0.0, and the row still produces a
line item (here a non-EU item with file total 0). -/
theorem C2_weight_normalization :
    fieldOutcome "/ MX / 2500 G" = FieldOutcome.matched "MX" "2500" "G" ∧
    matchedWeight "2500" "G" = 5 / 2 ∧
    fieldOutcome "/ PL / 10 KG" = FieldOutcome.matched "PL" "10" "KG" ∧
    matchedWeight "10" "KG" = 10 ∧
    fieldOutcome "/ DE / 1,500 grams" = FieldOutcome.matched "DE" "1,500" "grams" ∧
    matchedWeight "1,500" "grams" = 3 / 2 ∧
    matchedWeight "7" "KGS" = 7 ∧
    fieldOutcome "/ US / 1.2.3 KG" = FieldOutcome.matched "US" "1.2.3" "KG" ∧
    pyFloat "1.2.3" = none ∧
    matchedWeight "1.2.3" "KG" = 0 ∧
    (analyze_invoice isoSample (Except.ok [mkItemRow "/ US / 1.2.3 KG"])).nonEuItems =
      ["CAT, D, United States"] ∧
    (analyze_invoice isoSample (Except.ok [mkItemRow "/ US / 1.2.3 KG"])).totalNonEuWeightKg = 0 :=
  ⟨by decide, by decide, by decide, by decide, by decide, by decide, by decide,
   by decide, by decide, by decide, by decide, by decide⟩

/-- C3: malformed detection.  A field without a slash never matches
the pattern and is silently skipped; a field with a slash that does
not match yields a malformed entry whose weight text is the substring
after the last slash with whitespace runs collapsed ("/ XX" gives
"XX", and "a / b  /  c   d" gives "c d"); the empty field is a skip;
at row level, a file with one empty field and one "/ XX" field
produces exactly the one alert. -/
theorem C3_malformed_detection :
    (∀ field : String, field.data.contains '/' = false →
      fieldOutcome field = FieldOutcome.skip) ∧
    (∀ field : String, cooSearch field.data = none → field.data.contains '/' = true →
      fieldOutcome field = FieldOutcome.malformed (malformedWeightInfo field)) ∧
    fieldOutcome "/ XX" = FieldOutcome.malformed "XX" ∧
    fieldOutcome "" = FieldOutcome.skip ∧
    malformedWeightInfo "/ XX" = "XX" ∧
    malformedWeightInfo "a / b  /  c   d" = "c d" ∧
    (analyze_invoice isoSample (Except.ok [mkItemRow "", mkItemRow "/ XX"])).missingCooAlerts =
      [missingCooAlert "1" "CAT" "D" "XX"] := by
  refine ⟨?_, ?_, by decide, by decide, by decide, by decide, by decide⟩
  · intro field h
    unfold fieldOutcome
    rw [cooSearch_none_of_no_slash field.data h, h]
    rfl
  · intro field hs hc
    unfold fieldOutcome
    rw [hs, hc]
    rfl

/-- Witness for C3: the hypotheses are satisfiable; a slash-free field
is skipped. -/
theorem C3_malformed_detection_witness : fieldOutcome "abc" = FieldOutcome.skip :=
  C3_malformed_detection.1 "abc" (by decide)

/-- C4: on a failed read (any I/O, decoding or parsing-library error
text `e`), `analyze_invoice` returns the complete degraded result —
empty item lists, zero weight, "Unknown" references — and exactly one
alert string carrying the error text. -/
theorem C4_error_degradation (iso : String → Option String) (e : String) :
    analyze_invoice iso (Except.error e) =
      { nonEuItems := []
        euItems := []
        totalNonEuWeightKg := 0
        box5Reference := "Unknown"
        invoiceReference := "Unknown"
        missingCooAlerts := ["Error during analysis: " ++ e] } ∧
    (analyze_invoice iso (Except.error e)).missingCooAlerts.length = 1 :=
  ⟨rfl, rfl⟩

/-- C5: rounding happens after summation, at both stages.  Per file,
the reported total is `round(sum, 3)` over the matched non-EU row
weights; across files, the reported grand total is `round(sum of
per-file totals, 3)`.  On the concrete file with non-EU weights
1.0005 kg and 2.0005 kg, the raw sum is exactly 3.0010 and the
rounded total is 3.001, and aggregating that single file re-rounds to
the same 3.001. -/
theorem C5_rounding_post_summation :
    (∀ (iso : String → Option String) (lines : List (List String)),
      (analyze_invoice iso (Except.ok lines)).totalNonEuWeightKg =
        roundTo3 ((lines.map rowNonEuWeight).sum)) ∧
    (∀ results : List FileAnalysisResult,
      finalWeight results =
        roundTo3 ((results.map FileAnalysisResult.totalNonEuWeightKg).sum)) ∧
    (fileC5.map rowNonEuWeight).sum = 3001 / 1000 ∧
    (analyze_invoice isoSample (Except.ok fileC5)).totalNonEuWeightKg = 3001 / 1000 ∧
    finalWeight [analyze_invoice isoSample (Except.ok fileC5)] = 3001 / 1000 := by
  refine ⟨analyze_total_eq, ?_, by decide, by decide, by decide⟩
  intro results
  unfold finalWeight aggregate
  rw [foldl_aggregateStep_total]
  norm_num

/-- C6, counterexample: with one analysis result whose invoice
reference is "INV1" but whose Box 5 reference is "Unknown", the two
sets are not both empty, yet the aggregated Box 5 value is "Unknown" —
not the comma-joined contents of the (empty) PO set as the claim
states. -/
theorem C6_counterexample :
    box5_list [⟨[], [], 0, "Unknown", "INV1", []⟩] = "Unknown" ∧
    box5ListClaimed [⟨[], [], 0, "Unknown", "INV1", []⟩] = "" ∧
    box5_list [⟨[], [], 0, "Unknown", "INV1", []⟩] ≠
      box5ListClaimed [⟨[], [], 0, "Unknown", "INV1", []⟩] :=
  ⟨by decide, by decide, by decide⟩

/-- C6, amended: each file's non-"Unknown" invoice reference and
non-"Unknown" Box 5 reference are appended to their respective
collections in file order, and each final value independently is the
sorted, comma-joined set of its own collection, falling back to
"Unknown" exactly when its OWN collection is empty. -/
theorem C6_reference_sets (results : List FileAnalysisResult) :
    (aggregate results).invoiceNumbers =
      (results.map FileAnalysisResult.invoiceReference).filter (fun s => !(s == "Unknown")) ∧
    (aggregate results).poNumbers =
      (results.map FileAnalysisResult.box5Reference).filter (fun s => !(s == "Unknown")) ∧
    invoice_list results =
      (if (aggregate results).invoiceNumbers ≠ [] then
        String.intercalate ", " (pySortedSet (aggregate results).invoiceNumbers)
      else "Unknown") ∧
    box5_list results =
      (if (aggregate results).poNumbers ≠ [] then
        String.intercalate ", " (pySortedSet (aggregate results).poNumbers)
      else "Unknown") := by
  refine ⟨?_, ?_, rfl, rfl⟩
  · unfold aggregate
    rw [foldl_aggregateStep_inv]
    rfl
  · unfold aggregate
    rw [foldl_aggregateStep_po]
    rfl

/-- C7: EU/non-EU partition and unknown-code classification.  For a
qualifying row whose field matched with groups (c, w, u): when the
normalized code is in the EU set the row's display string is appended
to the EU list and nothing else changes; when it is not, the display
string is appended to the non-EU list and the weight is added — so
each item lands in exactly one list.  A code the ISO table cannot
resolve is necessarily non-EU (provided the table resolves all EU
codes, as the real ISO-3166 table does), and an unresolvable code that
is also not in the override table keeps the code itself as its
country name. -/
theorem C7_partition_classification (iso : String → Option String) (st : AccState)
    (row : List String) (c w u : String)
    (h1 : row.isEmpty = false) (h2 : pyNorm (row.getD 0 "") = "ITEM")
    (hm : fieldOutcome (cooFieldOf row) = FieldOutcome.matched c w u)
    (hiso : ∀ cc ∈ EU_CODES, (iso cc).isSome = true) :
    (cooOf c ∈ EU_CODES →
      rowStep iso st row =
        { afterBox5 st row with eu := (afterBox5 st row).eu ++ [matchedItemText iso row c] }) ∧
    (cooOf c ∉ EU_CODES →
      rowStep iso st row =
        { afterBox5 st row with
          nonEu := (afterBox5 st row).nonEu ++ [matchedItemText iso row c]
          total := (afterBox5 st row).total + matchedWeight w u }) ∧
    (iso (cooOf c) = none → cooOf c ∉ EU_CODES) ∧
    (∀ code : String, pyUpper code = code → iso code = none →
      code ∉ (["MX", "MY", "PL", "KR"] : List String) →
      countryNameOf iso code = code ∧ code ∉ EU_CODES) := by
  have hrow : rowStep iso st row =
      (if cooOf c ∈ EU_CODES then
        { afterBox5 st row with eu := (afterBox5 st row).eu ++ [matchedItemText iso row c] }
      else
        { afterBox5 st row with
          nonEu := (afterBox5 st row).nonEu ++ [matchedItemText iso row c]
          total := (afterBox5 st row).total + matchedWeight w u }) := by
    unfold rowStep
    rw [if_neg (by simp [h1]), if_neg (fun hne => hne h2), hm]
  refine ⟨?_, ?_, ?_, ?_⟩
  · intro hin
    rw [hrow, if_pos hin]
  · intro hout
    rw [hrow, if_neg hout]
  · intro hnone hmem
    have hsome := hiso (cooOf c) hmem
    rw [hnone] at hsome
    simp at hsome
  · intro code hup hnone hnotov
    have hne : code ≠ "MX" ∧ code ≠ "MY" ∧ code ≠ "PL" ∧ code ≠ "KR" := by
      simpa using hnotov
    constructor
    · simp only [countryNameOf, get_country_name]
      rw [hup, if_neg hne.1, if_neg hne.2.1, if_neg hne.2.2.1, if_neg hne.2.2.2,
        if_neg hne.2.2.2, hnone]
    · intro hmem
      have hsome := hiso code hmem
      rw [hnone] at hsome
      simp at hsome

/-- Witness for C7: a qualifying row with field "/ US / 1.0005 KG"
matches with code US, which is outside the EU set, so the item is
appended to the non-EU list and its weight accumulated. -/
theorem C7_partition_witness :
    rowStep isoSample ⟨[], [], 0, [], []⟩ (mkItemRow "/ US / 1.0005 KG") =
      { afterBox5 ⟨[], [], 0, [], []⟩ (mkItemRow "/ US / 1.0005 KG") with
        nonEu := (afterBox5 ⟨[], [], 0, [], []⟩ (mkItemRow "/ US / 1.0005 KG")).nonEu ++
          [matchedItemText isoSample (mkItemRow "/ US / 1.0005 KG") "US"]
        total := (afterBox5 ⟨[], [], 0, [], []⟩ (mkItemRow "/ US / 1.0005 KG")).total +
          matchedWeight "1.0005" "KG" } :=
  (C7_partition_classification isoSample ⟨[], [], 0, [], []⟩ (mkItemRow "/ US / 1.0005 KG")
      "US" "1.0005" "KG" (by decide) (by decide) (by decide) (by decide)).2.1 (by decide)

/-- C8: in the output message, the numbered non-EU list is the plain
concatenation of the per-file non-EU lists in file-processing order
(duplicates and order preserved), while the numbered EU list is the
de-duplicated, alphabetically sorted concatenation of the per-file EU
lists: it is sorted, has no duplicates, and contains exactly the
strings of the concatenated EU lists. -/
theorem C8_display_lists (results : List FileAnalysisResult) :
    (aggregate results).nonEu = (results.map FileAnalysisResult.nonEuItems).flatten ∧
    displayedEu results = pySortedSet ((results.map FileAnalysisResult.euItems).flatten) ∧
    List.Sorted (fun a b => strLe a b = true) (displayedEu results) ∧
    (displayedEu results).Nodup ∧
    (∀ x, x ∈ displayedEu results ↔ x ∈ (results.map FileAnalysisResult.euItems).flatten) ∧
    messageNonEuSection results =
      "Non-EU items:\n" ++ numberedFrom 1 ((results.map FileAnalysisResult.nonEuItems).flatten) ∧
    messageEuSection results =
      "EU items:\n" ++
        numberedFrom 1 (pySortedSet ((results.map FileAnalysisResult.euItems).flatten)) := by
  have hne : (aggregate results).nonEu = (results.map FileAnalysisResult.nonEuItems).flatten := by
    unfold aggregate
    rw [foldl_aggregateStep_nonEu]
    rfl
  have heu : (aggregate results).eu = (results.map FileAnalysisResult.euItems).flatten := by
    unfold aggregate
    rw [foldl_aggregateStep_eu]
    rfl
  refine ⟨hne, ?_, pySortedSet_sorted _, pySortedSet_nodup _, ?_, ?_, ?_⟩
  · unfold displayedEu
    rw [heu]
  · intro x
    unfold displayedEu
    rw [heu, mem_pySortedSet]
  · unfold messageNonEuSection
    rw [hne]
  · unfold messageEuSection displayedEu
    rw [heu]

/-- C9: PO/SO pair extraction.  The two-row file whose rows carry
(PO999, SO12345-000010) and (PO999, SO12345) after seven header rows
yields the single pair (PO999, SO12345) — the SO suffix after the
first "-" is discarded before deduplication; a qualifying row placed
among the first seven rows contributes nothing; first-seen order is
preserved for distinct pairs; and the pair list never contains
duplicates. -/
theorem C9_po_so_pairs :
    (extract_csv_metadata (Except.ok linesC9)).poSoPairs = [("PO999", "SO12345")] ∧
    (extract_csv_metadata (Except.ok [mkMetaRow "PO1" "SO1"])).poSoPairs = [] ∧
    (extract_csv_metadata (Except.ok
        (linesC9 ++ [mkMetaRow "PO2" "SO9-1", mkMetaRow "PO999" "SO12345-000020"]))).poSoPairs =
      [("PO999", "SO12345"), ("PO2", "SO9")] ∧
    (∀ input : Except String (List (List String)),
      (extract_csv_metadata input).poSoPairs.Nodup) := by
  refine ⟨by decide, by decide, by decide, ?_⟩
  intro input
  cases input with
  | error e => simp [extract_csv_metadata]
  | ok lines =>
    show ((lines.drop 7).foldl poSoStep []).Nodup
    exact nodup_foldl_addToSet poSoStep poSoStep_shape (lines.drop 7) [] List.nodup_nil

/-- C10: the invoice reference of a successfully read file is the
trimmed cell (0,1) whenever that cell exists and its trimmed value is
non-empty, and "Unknown" in every other case — in particular the
HEADER/INVOICE/INV fallback re-reads the very same cell and can never
produce a different value, and no other cell of the file influences
the result. -/
theorem C10_invoice_reference (iso : String → Option String) (lines : List (List String)) :
    (analyze_invoice iso (Except.ok lines)).invoiceReference =
      (if 1 < (lines.getD 0 []).length ∧ pyStrip ((lines.getD 0 []).getD 1 "") ≠ "" then
        pyStrip ((lines.getD 0 []).getD 1 "")
      else "Unknown") := by
  show pyOr (invoiceRefRaw lines) "Unknown" = _
  cases lines with
  | nil =>
    have hraw : invoiceRefRaw [] = "Unknown" := by
      simp only [invoiceRefRaw, ite_self]
      rw [if_neg (fun hc => Nat.lt_irrefl 0 hc.1)]
    rw [hraw]
    unfold pyOr
    rw [if_neg (by decide : ¬("Unknown" : String) = ""),
      if_neg (fun hc => absurd hc.1 (by decide))]
  | cons r0 rest =>
    by_cases hlen : 1 < ((r0 :: rest).getD 0 []).length
    · have hraw : invoiceRefRaw (r0 :: rest) =
          pyStrip (((r0 :: rest).getD 0 []).getD 1 "") := by
        simp only [invoiceRefRaw, ite_self]
        rw [if_pos ⟨Nat.succ_pos _, hlen⟩]
      rw [hraw]
      unfold pyOr
      by_cases hv : pyStrip (((r0 :: rest).getD 0 []).getD 1 "") = ""
      · rw [if_pos hv, if_neg (fun hc => hc.2 hv)]
      · rw [if_neg hv, if_pos ⟨hlen, hv⟩]
    · have hraw : invoiceRefRaw (r0 :: rest) = "Unknown" := by
        simp only [invoiceRefRaw, ite_self]
        rw [if_neg (fun hc => hlen hc.2)]
      rw [hraw]
      unfold pyOr
      rw [if_neg (by decide : ¬("Unknown" : String) = ""), if_neg (fun hc => hlen hc.1)]
